import Mathlib

/-!
# Todo API handler (`lambda/main.go`)

A shallow embedding of the request handler of the todo API: method dispatch,
the four operations (`getTodos`, `saveTodo`, `updateTodo`, `removeTodo`),
`httpError`, and the library calls they make.  The DynamoDB table, the clock,
the identifier generator and the failure of a store call are explicit inputs;
every store call an operation issues is recorded in its outcome.
-/

namespace TodoApi

/-! ## Values -/

/-- Go `error` values, identified by the library call that produced them. -/
inductive Error
  | json
  | attributeValue
  | marshal
  | store (reason : String)
  deriving DecidableEq

deriving instance DecidableEq for Except

/-- A `time.Time`: an instant, in nanoseconds since 0001-01-01T00:00:00Z, and the
offset of its zone in seconds east of UTC.  The zero value of the Go type is
`Time.zero`. -/
structure Time where
  wall : Int
  offset : Int
  deriving DecidableEq

/-- The zero value `time.Time{}`. -/
def Time.zero : Time := ⟨0, 0⟩

/-- `time.Second`, in nanoseconds. -/
def Second : Int := 1000000000

/-- `t.Add(d)`. -/
def Time.Add (t : Time) (d : Int) : Time := { t with wall := t.wall + d }

/-- `t.UTC()`: the same instant in the UTC zone. -/
def Time.UTC (t : Time) : Time := { t with offset := 0 }

/-- A `context.Context`, reduced to the deadline it carries. -/
structure Context where
  deadline : Option Time
  deriving DecidableEq

/-- `context.Background()`: no deadline. -/
def Context.Background : Context := ⟨none⟩

/-- `context.WithTimeout(parent, d)` at clock reading `now`: the deadline is
`now.Add(d)` unless the parent already carries an earlier one. -/
def Context.WithTimeout (parent : Context) (now : Time) (d : Int) : Context :=
  match parent.deadline with
  | some cur => if cur.wall < (now.Add d).wall then parent else ⟨some (now.Add d)⟩
  | none => ⟨some (now.Add d)⟩

/-- A JSON value. -/
inductive JsonValue
  | null
  | bool (b : Bool)
  | number (text : String)
  | string (s : String)
  | array (items : List JsonValue)
  | object (members : List (String × JsonValue))

/-- The text of a request body, represented by the outcome of the syntax check
`json.Unmarshal` runs before it decodes: `malformed` for text that is not one
JSON value (the empty body included), `json v` for the text of the value `v`. -/
inductive Body
  | malformed
  | json (v : JsonValue)

/-- The fields of `events.APIGatewayProxyRequest` the handler reads. -/
structure APIGatewayProxyRequest where
  HTTPMethod : String
  PathParameters : List (String × String)
  Body : Body

/-- The fields of `events.APIGatewayProxyResponse` the handler sets. -/
structure APIGatewayProxyResponse where
  StatusCode : Int
  Body : String
  deriving DecidableEq

structure CreateTodoRequest where
  Name : String
  Description : String
  CreateDate : Time
  deriving DecidableEq

structure ListTodoResponse where
  ID : String
  Name : String
  Description : String
  CreateDate : Time
  deriving DecidableEq

structure UpdateTodoRequest where
  ID : String
  Name : String
  Description : String
  deriving DecidableEq

/-- A `dynamodb.AttributeValue` of kind string, number, boolean or null; binary,
set, list and map values are not modelled. -/
inductive AttributeValue
  | S (s : String)
  | N (n : String)
  | BOOL (b : Bool)
  | NULL
  deriving DecidableEq

/-- A `map[string]*dynamodb.AttributeValue`, as an association list. -/
abbrev Item := List (String × AttributeValue)

/-- Assignment `m[k] = v` on an attribute map. -/
def Item.set : Item → String → AttributeValue → Item
  | [], k, v => [(k, v)]
  | (k', v') :: rest, k, v =>
    if k' = k then (k, v) :: rest else (k', v') :: Item.set rest k v

/-- The table: its items, in the order a scan returns them.  A scan that succeeds
returns every item, in one page. -/
abbrev Table := List Item

/-- Library functions that read a timestamp: `Time.UnmarshalJSON` on the content
of a JSON string, and `time.Parse(time.RFC3339, s)` as the attribute decoder
calls it. -/
structure Lib where
  parseJSONTime : String → Option Time
  parseRFC3339 : String → Option Time

/-- What one invocation reads from outside: the clock, the identifier
`uuid.NewString()` returns, the `TableName` environment variable, and the error
of the store call of this invocation when that call fails, for whatever reason
(an expired deadline, no connection, a request the service rejects). -/
structure Env where
  now : Time
  uuid : String
  tableName : String
  storeErr : Option Error

/-! ## Library calls -/

/-- `http.StatusText` on the statuses the handler answers with (200, 201, 400,
500) and on 404; the other registered statuses are not listed and get the empty
string, which the library gives to unregistered codes. -/
def StatusText (code : Int) : String :=
  if code = 200 then "OK"
  else if code = 201 then "Created"
  else if code = 400 then "Bad Request"
  else if code = 404 then "Not Found"
  else if code = 500 then "Internal Server Error"
  else ""

/-- Decimal digits of `n`, padded with zeros on the left to `width`. -/
def padDigits (width n : Nat) : List Char :=
  let ds := Nat.toDigits 10 n
  List.replicate (width - ds.length) '0' ++ ds

/-- Year, month and day of the day numbered `day`, day 0 being 0001-01-01
(proleptic Gregorian calendar). -/
def civilFromDays (day : Int) : Int × Int × Int :=
  let z := day + 306
  let era := z / 146097
  let doe := z % 146097
  let yoe := (doe - doe / 1460 + doe / 36524 - doe / 146096) / 365
  let doy := doe - (365 * yoe + yoe / 4 - yoe / 100)
  let mp := (5 * doy + 2) / 153
  let d := doy - (153 * mp + 2) / 5 + 1
  let m := if mp < 10 then mp + 3 else mp - 9
  (if m ≤ 2 then yoe + era * 400 + 1 else yoe + era * 400, m, d)

/-- Seconds since 0001-01-01T00:00:00 on the clock of the zone of `t`. -/
def Time.localSeconds (t : Time) : Int := t.wall / 1000000000 + t.offset

/-- `t.Year()`. -/
def Time.Year (t : Time) : Int := (civilFromDays (t.localSeconds / 86400)).1

/-- The fractional second of layout `.999999999`: nine digits with the trailing
zeros removed, nothing at all when the fraction is zero. -/
def formatFraction (nanos : Nat) : List Char :=
  let kept := ((padDigits 9 nanos).reverse.dropWhile (fun c => c = '0')).reverse
  if kept = [] then [] else '.' :: kept

/-- The zone of layout `Z07:00`. -/
def formatZone (offset : Int) : List Char :=
  if offset = 0 then ['Z']
  else
    let zone := offset.natAbs / 60
    (if offset < 0 ∧ zone ≠ 0 then '-' else '+')
      :: (padDigits 2 (zone / 60) ++ ':' :: padDigits 2 (zone % 60))

/-- `t.Format` with layout `time.RFC3339` (`nano = false`) or
`time.RFC3339Nano` (`nano = true`). -/
def Time.Format (nano : Bool) (t : Time) : String :=
  let secs := t.localSeconds
  let (y, m, d) := civilFromDays (secs / 86400)
  let sod := (secs % 86400).toNat
  String.mk <|
    (if y < 0 then ['-'] else []) ++ padDigits 4 y.natAbs ++ '-' :: padDigits 2 m.toNat
      ++ '-' :: padDigits 2 d.toNat ++ 'T' :: padDigits 2 (sod / 3600)
      ++ ':' :: padDigits 2 (sod % 3600 / 60) ++ ':' :: padDigits 2 (sod % 60)
      ++ (if nano then formatFraction (t.wall % 1000000000).toNat else [])
      ++ formatZone t.offset

/-- The double quote and the backslash. -/
def dquote : Char := Char.ofNat 34

def backslash : Char := Char.ofNat 92

/-- Lower-case hexadecimal digit. -/
def hexDigit (n : Nat) : Char := "0123456789abcdef".toList.getD n '0'

/-- How `json.Marshal` writes one character of a string: the quote and the
backslash are escaped, as are line feed, carriage return and tab; the other
control characters and `<`, `>`, `&` are written `\u00XX`, U+2028 and U+2029
`\u202X`. -/
def quoteChar (c : Char) : List Char :=
  if c = dquote ∨ c = backslash then [backslash, c]
  else if c.toNat = 10 then [backslash, 'n']
  else if c.toNat = 13 then [backslash, 'r']
  else if c.toNat = 9 then [backslash, 't']
  else if c.toNat < 32 ∨ c = '<' ∨ c = '>' ∨ c = '&' then
    [backslash, 'u', '0', '0', hexDigit (c.toNat / 16), hexDigit (c.toNat % 16)]
  else if c.toNat = 8232 ∨ c.toNat = 8233 then
    [backslash, 'u', '2', '0', '2', hexDigit (c.toNat % 16)]
  else [c]

/-- A Go string as a JSON string. -/
def jsonString (s : String) : List Char :=
  dquote :: s.toList.foldr (fun c acc => quoteChar c ++ acc) [dquote]

/-- `Time.MarshalJSON`: the RFC 3339 text with nanoseconds, quoted; an error when
the year is outside 0..9999. -/
def jsonTime (t : Time) : Except Error (List Char) :=
  if t.Year < 0 ∨ 10000 ≤ t.Year then .error .marshal
  else .ok (dquote :: (t.Format true).toList ++ [dquote])

/-- One `ListTodoResponse` as a JSON object, fields in declaration order under
their `json` tags. -/
def jsonTodo (t : ListTodoResponse) : Except Error (List Char) :=
  match jsonTime t.CreateDate with
  | .error e => .error e
  | .ok created =>
    .ok (Char.ofNat 123 :: jsonString "id" ++ ':' :: jsonString t.ID
      ++ ',' :: jsonString "name" ++ ':' :: jsonString t.Name
      ++ ',' :: jsonString "description" ++ ':' :: jsonString t.Description
      ++ ',' :: jsonString "createDate" ++ ':' :: created ++ [Char.ofNat 125])

/-- The elements of a JSON array, separated by commas. -/
def jsonElements : List ListTodoResponse → Except Error (List Char)
  | [] => .ok []
  | [t] => jsonTodo t
  | t :: t2 :: rest =>
    match jsonTodo t, jsonElements (t2 :: rest) with
    | .ok a, .ok b => .ok (a ++ ',' :: b)
    | .error e, _ => .error e
    | _, .error e => .error e

/-- `json.Marshal` of a `[]ListTodoResponse`.  A Go slice is `none` when it is
nil and `some xs` otherwise; a nil slice is written `null`. -/
def jsonMarshal : Option (List ListTodoResponse) → Except Error String
  | none => .ok "null"
  | some xs =>
    match jsonElements xs with
    | .error e => .error e
    | .ok cs => .ok (String.mk ('[' :: cs ++ [']']))

/-- Go `append(s, x)` on a slice that may be nil. -/
def goAppend {α : Type} (s : Option (List α)) (x : α) : Option (List α) :=
  some (s.getD [] ++ [x])

/-- Case folding of `encoding/json` when it matches an object key to a field:
ASCII letters fold to upper case, and so do the long s (U+017F) and the Kelvin
sign (U+212A). -/
def foldChar (c : Char) : Char :=
  if 97 ≤ c.toNat ∧ c.toNat ≤ 122 then Char.ofNat (c.toNat - 32)
  else if c.toNat = 383 then 'S'
  else if c.toNat = 8490 then 'K'
  else c

/-- Whether object key `key` selects the field tagged `field`. -/
def equalFold (field key : String) : Bool :=
  field.toList.map foldChar == key.toList.map foldChar

/-- Decoding a JSON value into a `string` field holding `cur`: a string is
stored, `null` leaves the field as it is, anything else is a type error. -/
def jsonToString (v : JsonValue) (cur : String) : Except Error String :=
  match v with
  | .string s => .ok s
  | .null => .ok cur
  | _ => .error .json

/-- Decoding a JSON value into a `time.Time` field holding `cur`. -/
def jsonToTime (lib : Lib) (v : JsonValue) (cur : Time) : Except Error Time :=
  match v with
  | .null => .ok cur
  | .string s =>
    match lib.parseJSONTime s with
    | some t => .ok t
    | none => .error .json
  | _ => .error .json

/-- The members of a JSON object decoded, in order, into a
`CreateTodoRequest`; keys that select no field are skipped. -/
def createFromMembers (lib : Lib) :
    List (String × JsonValue) → CreateTodoRequest → Except Error CreateTodoRequest
  | [], r => .ok r
  | (k, v) :: rest, r =>
    if equalFold "name" k then
      match jsonToString v r.Name with
      | .error e => .error e
      | .ok s => createFromMembers lib rest { r with Name := s }
    else if equalFold "description" k then
      match jsonToString v r.Description with
      | .error e => .error e
      | .ok s => createFromMembers lib rest { r with Description := s }
    else if equalFold "createDate" k then
      match jsonToTime lib v r.CreateDate with
      | .error e => .error e
      | .ok t => createFromMembers lib rest { r with CreateDate := t }
    else createFromMembers lib rest r

/-- `json.Unmarshal([]byte(event.Body), &createTodoRequest)` on a zero
`CreateTodoRequest`: `null` leaves the struct as it is, an object fills it, any
other value and malformed text are errors. -/
def unmarshalCreate (lib : Lib) : Body → Except Error CreateTodoRequest
  | .malformed => .error .json
  | .json .null => .ok ⟨"", "", Time.zero⟩
  | .json (.object ms) => createFromMembers lib ms ⟨"", "", Time.zero⟩
  | .json _ => .error .json

/-- The members of a JSON object decoded, in order, into an
`UpdateTodoRequest`. -/
def updateFromMembers :
    List (String × JsonValue) → UpdateTodoRequest → Except Error UpdateTodoRequest
  | [], r => .ok r
  | (k, v) :: rest, r =>
    if equalFold "id" k then
      match jsonToString v r.ID with
      | .error e => .error e
      | .ok s => updateFromMembers rest { r with ID := s }
    else if equalFold "name" k then
      match jsonToString v r.Name with
      | .error e => .error e
      | .ok s => updateFromMembers rest { r with Name := s }
    else if equalFold "description" k then
      match jsonToString v r.Description with
      | .error e => .error e
      | .ok s => updateFromMembers rest { r with Description := s }
    else updateFromMembers rest r

/-- `json.Unmarshal([]byte(event.Body), &updateTodoRequest)` on a zero
`UpdateTodoRequest`. -/
def unmarshalUpdate : Body → Except Error UpdateTodoRequest
  | .malformed => .error .json
  | .json .null => .ok ⟨"", "", ""⟩
  | .json (.object ms) => updateFromMembers ms ⟨"", "", ""⟩
  | .json _ => .error .json

/-- How `dynamodbattribute` encodes a Go string: the empty string becomes a
NULL attribute, any other string an S attribute. -/
def encodeString (s : String) : AttributeValue :=
  if s = "" then .NULL else .S s

/-- `dynamodbattribute.MarshalMap(createTodoRequest)`: one attribute per field
under its `dynamodbav` name (the option written ` omitempty`, with a leading
blank, is not one the encoder knows, so no field is left out); a `time.Time` is
written as its RFC 3339 text with nanoseconds. -/
def MarshalMap (r : CreateTodoRequest) : Except Error Item :=
  .ok [("name", encodeString r.Name), ("description", encodeString r.Description),
    ("createDate", .S (r.CreateDate.Format true))]

/-- The fields of `ListTodoResponse`. -/
inductive TodoField
  | ID
  | Name
  | Description
  | CreateDate
  deriving DecidableEq

/-- The fields of `ListTodoResponse` under their `dynamodbav` names, in
declaration order. -/
def todoFields : List (String × TodoField) :=
  [("id", .ID), ("name", .Name), ("description", .Description), ("createDate", .CreateDate)]

/-- The field the attribute decoder fills from the attribute called `name`: the
field of that very name, and when there is none the first field whose name is
`name` up to letter case (`strings.EqualFold`, which on these names is the
folding of `equalFold`). -/
def FieldByName (name : String) : Option TodoField :=
  match todoFields.lookup name with
  | some f => some f
  | none => (todoFields.find? (fun p => equalFold p.1 name)).map Prod.snd

/-- An attribute decoded into a `string` field: S and N give their text, NULL
the zero value. -/
def attrToString : AttributeValue → Except Error String
  | .S s => .ok s
  | .N n => .ok n
  | .NULL => .ok ""
  | .BOOL _ => .error .attributeValue

/-- An attribute decoded into a `time.Time` field: the text of an S attribute is
read as an RFC 3339 timestamp, NULL gives the zero value. -/
def attrToTime (lib : Lib) : AttributeValue → Except Error Time
  | .NULL => .ok Time.zero
  | .S s =>
    match lib.parseRFC3339 s with
    | some t => .ok t
    | none => .error .attributeValue
  | _ => .error .attributeValue

/-- The loop of the attribute decoder over the entries of the map, in the order
the list gives them (the iteration order of the Go map): an entry that selects a
field is decoded into it, overwriting what an earlier entry left there; an entry
that selects none is skipped. -/
def unmarshalAttrs (lib : Lib) : Item → ListTodoResponse → Except Error ListTodoResponse
  | [], r => .ok r
  | (k, av) :: rest, r =>
    match FieldByName k with
    | none => unmarshalAttrs lib rest r
    | some .ID =>
      match attrToString av with
      | .error e => .error e
      | .ok s => unmarshalAttrs lib rest { r with ID := s }
    | some .Name =>
      match attrToString av with
      | .error e => .error e
      | .ok s => unmarshalAttrs lib rest { r with Name := s }
    | some .Description =>
      match attrToString av with
      | .error e => .error e
      | .ok s => unmarshalAttrs lib rest { r with Description := s }
    | some .CreateDate =>
      match attrToTime lib av with
      | .error e => .error e
      | .ok t => unmarshalAttrs lib rest { r with CreateDate := t }

/-- `dynamodbattribute.UnmarshalMap(v, &todo)` on a zero `ListTodoResponse`. -/
def UnmarshalMap (lib : Lib) (v : Item) : Except Error ListTodoResponse :=
  unmarshalAttrs lib v ⟨"", "", "", Time.zero⟩

/-- The update expression built from
`expression.Set(Name(k1), Value(v1)).Set(...)`: the attribute names with their
values encoded. -/
def buildUpdate (sets : List (String × String)) :
    Except Error (List (String × AttributeValue)) :=
  .ok (sets.map fun kv => (kv.1, encodeString kv.2))

/-! ## The store -/

/-- The table after a successful `PutItem`: the item replaces the one with the
same `id`, if any. -/
def Table.PutItem (t : Table) (item : Item) : Table :=
  t.filter (fun x => x.lookup "id" ≠ item.lookup "id") ++ [item]

/-- The table after a successful `DeleteItem` on key `id = key`. -/
def Table.DeleteItem (t : Table) (key : AttributeValue) : Table :=
  t.filter (fun x => x.lookup "id" ≠ some key)

/-- An item after the `SET` actions of an update expression. -/
def Item.applySets (x : Item) (sets : List (String × AttributeValue)) : Item :=
  sets.foldl (fun acc kv => Item.set acc kv.1 kv.2) x

/-- The table after a successful `UpdateItem` on key `id = key`: the attributes
are set on the item with that key, and an item holding the key and the
attributes is created when there is none. -/
def Table.UpdateItem (t : Table) (key : AttributeValue)
    (sets : List (String × AttributeValue)) : Table :=
  if t.any (fun x => x.lookup "id" = some key) then
    t.map (fun x => if x.lookup "id" = some key then Item.applySets x sets else x)
  else t ++ [Item.applySets [("id", key)] sets]

/-- A call on the DynamoDB client, with the context it is issued under. -/
inductive StoreCall
  | Scan (ctx : Context) (tableName : String)
  | PutItem (ctx : Context) (tableName : String) (item : Item)
  | UpdateItem (ctx : Context) (tableName : String) (key : AttributeValue)
      (sets : List (String × AttributeValue))
  | DeleteItem (ctx : Context) (tableName : String) (key : AttributeValue)
  deriving DecidableEq

/-- The context a store call is issued under. -/
def StoreCall.ctx : StoreCall → Context
  | .Scan c _ => c
  | .PutItem c _ _ => c
  | .UpdateItem c _ _ _ => c
  | .DeleteItem c _ _ => c

/-- What an invocation does: the response and error it returns, the table it
leaves, the store calls it issued and the errors it logged. -/
structure Outcome where
  resp : APIGatewayProxyResponse
  err : Option Error
  table : Table
  calls : List StoreCall
  logs : List Error

/-! ## The handler -/

/-- `httpError(statusCode, err)`: logs the error when there is one, and returns
the status with its standard text and a nil error.  The table and the store
calls issued so far are carried into the outcome unchanged. -/
def httpError (statusCode : Int) (err : Option Error) (table : Table)
    (calls : List StoreCall) : Outcome :=
  { resp := ⟨statusCode, StatusText statusCode⟩
    err := none
    table := table
    calls := calls
    logs := match err with
      | some e => [e]
      | none => [] }

/-- The loop of `getTodos` over `result.Items`, `todos` being the slice built so
far. -/
def getTodosLoop (lib : Lib) :
    List Item → Option (List ListTodoResponse) → Except Error (Option (List ListTodoResponse))
  | [], todos => .ok todos
  | v :: rest, todos =>
    match UnmarshalMap lib v with
    | .error e => .error e
    | .ok todo => getTodosLoop lib rest (goAppend todos todo)

def getTodos (lib : Lib) (env : Env) (table : Table) (_event : APIGatewayProxyRequest) :
    Outcome :=
  let ctx := Context.WithTimeout Context.Background env.now (Second * 3)
  let call := StoreCall.Scan ctx env.tableName
  match env.storeErr with
  | some err => { resp := ⟨0, ""⟩, err := some err, table := table, calls := [call], logs := [] }
  | none =>
    match getTodosLoop lib table none with
    | .error err => httpError 500 (some err) table [call]
    | .ok todos =>
      match jsonMarshal todos with
      | .error err => httpError 500 (some err) table [call]
      | .ok todoToJson =>
        { resp := ⟨200, todoToJson⟩, err := none, table := table, calls := [call], logs := [] }

def saveTodo (lib : Lib) (env : Env) (table : Table) (event : APIGatewayProxyRequest) :
    Outcome :=
  match unmarshalCreate lib event.Body with
  | .error err => httpError 400 (some err) table []
  | .ok createTodoRequest =>
    match MarshalMap createTodoRequest with
    | .error err => httpError 500 (some err) table []
    | .ok av =>
      let av := Item.set av "id" (.S env.uuid)
      let ctx := Context.WithTimeout Context.Background env.now (Second * 3)
      let call := StoreCall.PutItem ctx env.tableName av
      match env.storeErr with
      | some err => httpError 500 (some err) table [call]
      | none =>
        { resp := ⟨201, ""⟩, err := none, table := Table.PutItem table av, calls := [call],
          logs := [] }

def updateTodo (_lib : Lib) (env : Env) (table : Table) (event : APIGatewayProxyRequest) :
    Outcome :=
  match event.PathParameters.lookup "id" with
  | none => httpError 400 none table []
  | some id =>
    match unmarshalUpdate event.Body with
    | .error err => { resp := ⟨0, ""⟩, err := some err, table := table, calls := [], logs := [] }
    | .ok updateTodoRequest =>
      if id ≠ updateTodoRequest.ID then httpError 400 none table []
      else
        match buildUpdate [("name", updateTodoRequest.Name),
            ("description", updateTodoRequest.Description),
            ("updateDate", env.now.UTC.Format false)] with
        | .error err => httpError 500 (some err) table []
        | .ok expr =>
          let call := StoreCall.UpdateItem Context.Background env.tableName (.S id) expr
          match env.storeErr with
          | some err => httpError 500 (some err) table [call]
          | none =>
            { resp := ⟨200, ""⟩, err := none, table := Table.UpdateItem table (.S id) expr,
              calls := [call], logs := [] }

def removeTodo (_lib : Lib) (env : Env) (table : Table) (event : APIGatewayProxyRequest) :
    Outcome :=
  match event.PathParameters.lookup "id" with
  | none => httpError 400 none table []
  | some id =>
    let ctx := Context.WithTimeout Context.Background env.now (Second * 3)
    let call := StoreCall.DeleteItem ctx env.tableName (.S id)
    match env.storeErr with
    | some err => httpError 500 (some err) table [call]
    | none =>
      { resp := ⟨200, ""⟩, err := none, table := Table.DeleteItem table (.S id),
        calls := [call], logs := [] }

/-- The type `EndpointAction`, with the inputs of an invocation made explicit. -/
abbrev EndpointAction := Lib → Env → Table → APIGatewayProxyRequest → Outcome

/-- The map `actions` as `init` fills it: `http.MethodPost`, `http.MethodGet`,
`http.MethodPut` and `http.MethodDelete` are the strings below; looking up any
other key gives nil. -/
def actions (method : String) : Option EndpointAction :=
  if method = "POST" then some saveTodo
  else if method = "GET" then some getTodos
  else if method = "PUT" then some updateTodo
  else if method = "DELETE" then some removeTodo
  else none

def handler (lib : Lib) (env : Env) (table : Table) (event : APIGatewayProxyRequest) :
    Outcome :=
  match actions event.HTTPMethod with
  | some action => action lib env table event
  | none => httpError 500 none table []

/-- Whether the attribute decoder reads an entry into the field `ID`. -/
def Item.selectsID (kv : String × AttributeValue) : Bool :=
  FieldByName kv.1 = some .ID

/-- Whether the entries of an item that the decoder reads into `ID` are one
entry, the key `id`, of kind S. -/
def Item.hasKey (x : Item) : Bool :=
  match x.filter Item.selectsID with
  | [(k, .S _)] => k = "id"
  | _ => false

/-- The key schema of the table (partition key `id` of type string), with no
second spelling of the key: every item carries `id` as an S attribute and no
other attribute whose name is `id` up to letter case. -/
def Table.Keyed (t : Table) : Bool := t.all Item.hasKey

/-- The wire form of one todo in the body of the list response: a JSON object
with the members `id`, `name`, `description`, `createDate`, in that order, the
date as its quoted RFC 3339 text. -/
def wireTodo (t : ListTodoResponse) : List Char :=
  [Char.ofNat 123] ++ jsonString "id" ++ [':'] ++ jsonString t.ID ++ [',']
    ++ jsonString "name" ++ [':'] ++ jsonString t.Name ++ [',']
    ++ jsonString "description" ++ [':'] ++ jsonString t.Description ++ [',']
    ++ jsonString "createDate" ++ [':'] ++ [dquote] ++ (t.CreateDate.Format true).toList
    ++ [dquote] ++ [Char.ofNat 125]

/-- Texts joined by commas. -/
def commaJoin : List (List Char) → List Char
  | [] => []
  | [a] => a
  | a :: b :: rest => a ++ [','] ++ commaJoin (b :: rest)

/-- The wire form of the body of the list response: the todos, in a JSON
array. -/
def wireTodos (todos : List ListTodoResponse) : String :=
  String.mk (['['] ++ commaJoin (todos.map wireTodo) ++ [']'])

/-! ## Sample inputs -/

/-- A library whose timestamp readers know two texts: the zero time and the
first second of 1970. -/
def sampleLib : Lib :=
  { parseJSONTime := fun s =>
      if s = "0001-01-01T00:00:00Z" then some Time.zero
      else if s = "1970-01-01T00:00:00Z" then some ⟨62135596800000000000, 0⟩
      else none
    parseRFC3339 := fun s =>
      if s = "0001-01-01T00:00:00Z" then some Time.zero
      else if s = "1970-01-01T00:00:00Z" then some ⟨62135596800000000000, 0⟩
      else none }

/-- An invocation at 2021-12-01T00:00:00Z whose store call succeeds. -/
def sampleEnv : Env :=
  { now := ⟨63773913600000000000, 0⟩
    uuid := "3f2b8c1e-5d4a-4e6b-9c7d-0a1b2c3d4e5f"
    tableName := "todo-api"
    storeErr := none }

/-! ## Lemmas on the library calls -/

theorem Time.Format_ne_empty (nano : Bool) (t : Time) : t.Format nano ≠ "" := by
  intro h
  have h2 := congrArg String.data h
  simp [Time.Format] at h2

theorem attrToString_encodeString (s : String) : attrToString (encodeString s) = .ok s := by
  unfold encodeString
  split
  · next h => simp [attrToString, h]
  · simp [attrToString]

theorem FieldByName_id : FieldByName "id" = some .ID := by decide

theorem FieldByName_name : FieldByName "name" = some .Name := by decide

theorem FieldByName_description : FieldByName "description" = some .Description := by decide

theorem FieldByName_createDate : FieldByName "createDate" = some .CreateDate := by decide

theorem FieldByName_updateDate : FieldByName "updateDate" = none := by decide

/-- Entries that the decoder does not read into `ID` leave that field alone. -/
theorem unmarshalAttrs_ID_none (lib : Lib) (x : Item) :
    ∀ r e : ListTodoResponse, unmarshalAttrs lib x r = .ok e →
      x.filter Item.selectsID = [] → e.ID = r.ID := by
  induction x with
  | nil =>
    intro r e h _
    simp only [unmarshalAttrs] at h
    rw [← Except.ok.inj h]
  | cons kv rest ih =>
    obtain ⟨k, av⟩ := kv
    intro r e h hf
    unfold unmarshalAttrs at h
    cases hk : FieldByName k with
    | none =>
      have hs : Item.selectsID (k, av) = false := by simp [Item.selectsID, hk]
      rw [List.filter_cons_of_neg (by simp [hs])] at hf
      simp only [hk] at h
      exact ih r e h hf
    | some f =>
      cases f with
      | ID =>
        have hs : Item.selectsID (k, av) = true := by simp [Item.selectsID, hk]
        rw [List.filter_cons_of_pos hs] at hf
        exact absurd hf (by simp)
      | Name =>
        have hs : Item.selectsID (k, av) = false := by simp [Item.selectsID, hk]
        rw [List.filter_cons_of_neg (by simp [hs])] at hf
        simp only [hk] at h
        cases ha : attrToString av with
        | error e2 => simp [ha] at h
        | ok s =>
          simp only [ha] at h
          have h3 := ih _ e h hf
          exact h3
      | Description =>
        have hs : Item.selectsID (k, av) = false := by simp [Item.selectsID, hk]
        rw [List.filter_cons_of_neg (by simp [hs])] at hf
        simp only [hk] at h
        cases ha : attrToString av with
        | error e2 => simp [ha] at h
        | ok s =>
          simp only [ha] at h
          have h3 := ih _ e h hf
          exact h3
      | CreateDate =>
        have hs : Item.selectsID (k, av) = false := by simp [Item.selectsID, hk]
        rw [List.filter_cons_of_neg (by simp [hs])] at hf
        simp only [hk] at h
        cases ha : attrToTime lib av with
        | error e2 => simp [ha] at h
        | ok s =>
          simp only [ha] at h
          have h3 := ih _ e h hf
          exact h3

/-- On an item whose only entry read into `ID` is the key `id`, of kind S, the
decoder lists the key. -/
theorem unmarshalAttrs_ID_key (lib : Lib) (key : String) (x : Item) :
    ∀ r e : ListTodoResponse, unmarshalAttrs lib x r = .ok e →
      x.filter Item.selectsID = [("id", .S key)] → e.ID = key := by
  induction x with
  | nil =>
    intro r e _ hf
    simp at hf
  | cons kv rest ih =>
    obtain ⟨k, av⟩ := kv
    intro r e h hf
    unfold unmarshalAttrs at h
    cases hk : FieldByName k with
    | none =>
      have hs : Item.selectsID (k, av) = false := by simp [Item.selectsID, hk]
      rw [List.filter_cons_of_neg (by simp [hs])] at hf
      simp only [hk] at h
      exact ih r e h hf
    | some f =>
      cases f with
      | ID =>
        have hs : Item.selectsID (k, av) = true := by simp [Item.selectsID, hk]
        rw [List.filter_cons_of_pos hs] at hf
        simp only [List.cons.injEq, Prod.mk.injEq] at hf
        obtain ⟨⟨_, hav⟩, hrest⟩ := hf
        simp only [hk, hav, attrToString] at h
        have h2 := unmarshalAttrs_ID_none lib rest _ e h hrest
        simpa using h2
      | Name =>
        have hs : Item.selectsID (k, av) = false := by simp [Item.selectsID, hk]
        rw [List.filter_cons_of_neg (by simp [hs])] at hf
        simp only [hk] at h
        cases ha : attrToString av with
        | error e2 => simp [ha] at h
        | ok s =>
          simp only [ha] at h
          have h3 := ih _ e h hf
          exact h3
      | Description =>
        have hs : Item.selectsID (k, av) = false := by simp [Item.selectsID, hk]
        rw [List.filter_cons_of_neg (by simp [hs])] at hf
        simp only [hk] at h
        cases ha : attrToString av with
        | error e2 => simp [ha] at h
        | ok s =>
          simp only [ha] at h
          have h3 := ih _ e h hf
          exact h3
      | CreateDate =>
        have hs : Item.selectsID (k, av) = false := by simp [Item.selectsID, hk]
        rw [List.filter_cons_of_neg (by simp [hs])] at hf
        simp only [hk] at h
        cases ha : attrToTime lib av with
        | error e2 => simp [ha] at h
        | ok s =>
          simp only [ha] at h
          have h3 := ih _ e h hf
          exact h3

/-- On such an item the key is what `id` looks up. -/
theorem Item.lookup_id_of_key (key : String) (x : Item)
    (hf : x.filter Item.selectsID = [("id", .S key)]) : x.lookup "id" = some (.S key) := by
  induction x with
  | nil => simp at hf
  | cons kv rest ih =>
    obtain ⟨k, av⟩ := kv
    by_cases hs : Item.selectsID (k, av) = true
    · rw [List.filter_cons_of_pos hs] at hf
      simp only [List.cons.injEq, Prod.mk.injEq] at hf
      obtain ⟨⟨hk, hav⟩, _⟩ := hf
      simp [List.lookup, hk, hav]
    · rw [List.filter_cons_of_neg hs] at hf
      have hne : ("id" == k) = false := by
        by_contra hc
        have hk : k = "id" := by
          have : ("id" == k) = true := by simpa using hc
          exact (beq_iff_eq.mp this).symm
        apply hs
        simp [Item.selectsID, hk, FieldByName_id]
      simp only [List.lookup, hne]
      exact ih hf

theorem UnmarshalMap_id (lib : Lib) (x : Item) (e : ListTodoResponse) (k : String)
    (h : UnmarshalMap lib x = .ok e) (hk : x.filter Item.selectsID = [("id", .S k)]) :
    e.ID = k :=
  unmarshalAttrs_ID_key lib k x _ e h hk

/-- The item `saveTodo` writes decodes to the name and description of the
request, under the identifier that was generated. -/
theorem UnmarshalMap_written (lib : Lib) (req : CreateTodoRequest) (uuid : String)
    (d : ListTodoResponse)
    (h : UnmarshalMap lib
      [("name", encodeString req.Name), ("description", encodeString req.Description),
        ("createDate", .S (req.CreateDate.Format true)), ("id", .S uuid)] = .ok d) :
    d.ID = uuid ∧ d.Name = req.Name ∧ d.Description = req.Description := by
  unfold UnmarshalMap at h
  simp only [unmarshalAttrs, FieldByName_name, FieldByName_description, FieldByName_createDate,
    FieldByName_id, attrToString_encodeString] at h
  cases h4 : attrToTime lib (.S (req.CreateDate.Format true)) with
  | error e => simp [h4] at h
  | ok c =>
    simp only [h4, attrToString] at h
    rw [← Except.ok.inj h]
    exact ⟨rfl, rfl, rfl⟩

/-- The escapes of `jsonString` on a sample text: a quote goes behind a
backslash, `<` and `>` become `\u003c` and `\u003e`, the line feed `\n`. -/
theorem jsonString_sample :
    String.mk (jsonString "say \"tea\" <2>\n") = "\"say \\\"tea\\\" \\u003c2\\u003e\\n\"" := by
  decide

/-- The text `json.Marshal` writes for one todo is its wire form. -/
theorem jsonTodo_wire (t : ListTodoResponse) (a : List Char) (h : jsonTodo t = .ok a) :
    a = wireTodo t := by
  unfold jsonTodo jsonTime at h
  split at h
  · next e he =>
    exact absurd h (by simp)
  · next created hc =>
    split at hc
    · exact absurd hc (by simp)
    · rw [← Except.ok.inj h, ← Except.ok.inj hc]
      simp [wireTodo]

theorem jsonElements_nil : jsonElements [] = .ok [] := by rfl

theorem jsonElements_one (t : ListTodoResponse) : jsonElements [t] = jsonTodo t := by rfl

theorem jsonElements_more (t t2 : ListTodoResponse) (rest : List ListTodoResponse) :
    jsonElements (t :: t2 :: rest) =
      match jsonTodo t, jsonElements (t2 :: rest) with
      | .ok a, .ok b => .ok (a ++ ',' :: b)
      | .error e, _ => .error e
      | _, .error e => .error e := by rfl

theorem jsonElements_wire (todos : List ListTodoResponse) :
    ∀ cs : List Char, jsonElements todos = .ok cs → cs = commaJoin (todos.map wireTodo) := by
  induction todos with
  | nil =>
    intro cs h
    rw [jsonElements_nil] at h
    rw [← Except.ok.inj h]
    rfl
  | cons t rest ih =>
    intro cs h
    cases rest with
    | nil =>
      rw [jsonElements_one] at h
      rw [jsonTodo_wire t cs h]
      rfl
    | cons t2 rest2 =>
      rw [jsonElements_more] at h
      cases ht : jsonTodo t with
      | error e => simp [ht] at h
      | ok a =>
        cases hr : jsonElements (t2 :: rest2) with
        | error e => simp [ht, hr] at h
        | ok b =>
          simp only [ht, hr] at h
          rw [← Except.ok.inj h, jsonTodo_wire t a ht, ih b hr]
          simp [commaJoin]

/-- The body `json.Marshal` writes for a slice that is not nil is the wire form of
the list. -/
theorem jsonMarshal_wire (todos : List ListTodoResponse) (body : String)
    (h : jsonMarshal (some todos) = .ok body) : body = wireTodos todos := by
  unfold jsonMarshal at h
  cases hc : jsonElements todos with
  | error e => simp [hc] at h
  | ok cs =>
    simp only [hc] at h
    rw [← Except.ok.inj h, jsonElements_wire todos cs hc]
    simp [wireTodos]

theorem createFromMembers_createDate (lib : Lib) (ms : List (String × JsonValue)) :
    ∀ r r2 : CreateTodoRequest, createFromMembers lib ms r = .ok r2 →
      (∀ kv ∈ ms, equalFold "createDate" kv.1 = false) → r2.CreateDate = r.CreateDate := by
  induction ms with
  | nil =>
    intro r r2 h _
    simp [createFromMembers] at h
    rw [← h]
  | cons kv rest ih =>
    intro r r2 h hno
    obtain ⟨k, v⟩ := kv
    have hk : equalFold "createDate" k = false := hno (k, v) (List.mem_cons_self _ _)
    have hrest : ∀ kv ∈ rest, equalFold "createDate" kv.1 = false :=
      fun kv hkv => hno kv (List.mem_cons_of_mem _ hkv)
    unfold createFromMembers at h
    split at h
    · split at h
      · exact absurd h (by simp)
      · have h3 := ih _ _ h hrest
        exact h3
    · split at h
      · split at h
        · exact absurd h (by simp)
        · have h3 := ih _ _ h hrest
          exact h3
      · simp [hk] at h
        exact ih _ _ h hrest

/-- The item `saveTodo` puts for a decoded request. -/
theorem saveTodo_calls (lib : Lib) (env : Env) (table : Table) (event : APIGatewayProxyRequest)
    (req : CreateTodoRequest) (hbody : unmarshalCreate lib event.Body = .ok req) :
    (saveTodo lib env table event).calls
      = [StoreCall.PutItem (Context.WithTimeout Context.Background env.now (Second * 3))
          env.tableName
          [("name", encodeString req.Name), ("description", encodeString req.Description),
            ("createDate", .S (req.CreateDate.Format true)), ("id", .S env.uuid)]] := by
  unfold saveTodo
  simp only [hbody, MarshalMap]
  cases env.storeErr <;> simp [httpError, Item.set]

/-- A create answers 201 only when the body decoded and the store call
succeeded. -/
theorem saveTodo_created (lib : Lib) (env : Env) (table : Table) (event : APIGatewayProxyRequest)
    (h : (saveTodo lib env table event).resp.StatusCode = 201) :
    ∃ req, unmarshalCreate lib event.Body = .ok req ∧ env.storeErr = none
      ∧ (saveTodo lib env table event).table
        = Table.PutItem table
            [("name", encodeString req.Name), ("description", encodeString req.Description),
              ("createDate", .S (req.CreateDate.Format true)), ("id", .S env.uuid)] := by
  unfold saveTodo at h ⊢
  cases hb : unmarshalCreate lib event.Body with
  | error e => simp [hb, httpError] at h
  | ok req =>
    refine ⟨req, rfl, ?_⟩
    simp only [hb, MarshalMap] at h ⊢
    cases hs : env.storeErr with
    | some e => simp [hs, httpError] at h
    | none => simp [Item.set]

/-- The loop of `getTodos` over a list that ends in `y`: the result is the slice
built so far, followed by the decoded items in order. -/
theorem getTodosLoop_snoc (lib : Lib) (y : Item) (xs : List Item) :
    ∀ (acc r : Option (List ListTodoResponse)), getTodosLoop lib (xs ++ [y]) acc = .ok r →
      ∃ ds d, r = some (acc.getD [] ++ ds ++ [d]) ∧ UnmarshalMap lib y = .ok d
        ∧ ∀ e ∈ ds, ∃ x ∈ xs, UnmarshalMap lib x = .ok e := by
  induction xs with
  | nil =>
    intro acc r h
    simp only [List.nil_append, getTodosLoop] at h
    cases hy : UnmarshalMap lib y with
    | error e => simp [hy] at h
    | ok d =>
      simp only [hy, goAppend] at h
      refine ⟨[], d, ?_, rfl, ?_⟩
      · simp at h
        simp [← h]
      · intro e he
        simp at he
  | cons x xs ih =>
    intro acc r h
    simp only [List.cons_append, getTodosLoop] at h
    cases hx : UnmarshalMap lib x with
    | error e => simp [hx] at h
    | ok e0 =>
      simp only [hx] at h
      obtain ⟨ds, d, hr, hy, hds⟩ := ih _ _ h
      refine ⟨e0 :: ds, d, ?_, hy, ?_⟩
      · rw [hr]
        simp [goAppend]
      · intro e he
        rcases List.mem_cons.mp he with rfl | he
        · exact ⟨x, List.mem_cons_self _ _, hx⟩
        · obtain ⟨x2, hx2, hd⟩ := hds e he
          exact ⟨x2, List.mem_cons_of_mem _ hx2, hd⟩

/-- A list answers 200 only when the scan, the decoding of every item and the
serialization all succeeded. -/
theorem getTodos_ok (lib : Lib) (env : Env) (table : Table) (event : APIGatewayProxyRequest)
    (h : (getTodos lib env table event).resp.StatusCode = 200) :
    ∃ todos, getTodosLoop lib table none = .ok todos
      ∧ jsonMarshal todos = .ok (getTodos lib env table event).resp.Body := by
  unfold getTodos at h ⊢
  cases hs : env.storeErr with
  | some e => simp [hs] at h
  | none =>
    simp only [hs] at h ⊢
    cases hl : getTodosLoop lib table none with
    | error e => simp [hl, httpError] at h
    | ok todos =>
      simp only [hl] at h ⊢
      cases hj : jsonMarshal todos with
      | error e => simp [hj, httpError] at h
      | ok body => exact ⟨todos, rfl, by rw [hj]⟩

/-! ## The key schema is an invariant -/

theorem Item.lookup_set_ne (x : Item) (k k2 : String) (v : AttributeValue) (h : k ≠ k2) :
    (Item.set x k2 v).lookup k = x.lookup k := by
  have hb : (k == k2) = false := by simpa using h
  induction x with
  | nil => simp [Item.set, List.lookup, hb]
  | cons kv rest ih =>
    obtain ⟨k3, v3⟩ := kv
    unfold Item.set
    split
    · next h3 =>
      subst h3
      simp [List.lookup, hb]
    · simp only [List.lookup]
      rw [ih]

theorem Item.filter_key (k : String) :
    List.filter Item.selectsID [("id", AttributeValue.S k)] = [("id", .S k)] := by
  simp [List.filter, Item.selectsID, FieldByName_id]

theorem Item.filter_written (a b c : AttributeValue) (k : String) :
    List.filter Item.selectsID
        [("name", a), ("description", b), ("createDate", c), ("id", AttributeValue.S k)]
      = [("id", .S k)] := by
  simp [List.filter, Item.selectsID, FieldByName_id, FieldByName_name,
    FieldByName_description, FieldByName_createDate]

theorem Item.filter_set_other (x : Item) (k : String) (v : AttributeValue)
    (hk : FieldByName k ≠ some .ID) :
    (Item.set x k v).filter Item.selectsID = x.filter Item.selectsID := by
  have hs : ∀ w : AttributeValue, Item.selectsID (k, w) = false := by
    intro w
    simp [Item.selectsID, hk]
  induction x with
  | nil => simp [Item.set, List.filter, hs]
  | cons kv rest ih =>
    obtain ⟨k3, v3⟩ := kv
    unfold Item.set
    split
    · next h3 =>
      subst h3
      simp [List.filter, hs]
    · simp only [List.filter]
      rw [ih]

theorem Table.keyed_iff (t : Table) :
    t.Keyed = true ↔ ∀ x ∈ t, ∃ k, x.filter Item.selectsID = [("id", .S k)] := by
  have hx : ∀ x : Item, x.hasKey = true ↔ ∃ k, x.filter Item.selectsID = [("id", .S k)] := by
    intro x
    unfold Item.hasKey
    split
    · next k s hs =>
      rw [hs]
      constructor
      · intro hk
        exact ⟨s, by simpa using hk⟩
      · rintro ⟨k2, hk2⟩
        simp only [List.cons.injEq, Prod.mk.injEq, and_true] at hk2
        simpa using hk2.1
    · next hn =>
      simp only [Bool.false_eq_true, false_iff]
      rintro ⟨k, hk⟩
      exact hn "id" k hk
  simp only [Table.Keyed, List.all_eq_true, hx]

theorem Table.Keyed_PutItem (t : Table) (item : Item) (k : String) (h : t.Keyed = true)
    (hk : item.filter Item.selectsID = [("id", .S k)]) :
    (Table.PutItem t item).Keyed = true := by
  rw [Table.keyed_iff] at h ⊢
  intro x hx
  unfold Table.PutItem at hx
  rcases List.mem_append.mp hx with hx | hx
  · exact h x (List.mem_filter.mp hx).1
  · simp at hx
    subst hx
    exact ⟨k, hk⟩

theorem Table.Keyed_DeleteItem (t : Table) (key : AttributeValue) (h : t.Keyed = true) :
    (Table.DeleteItem t key).Keyed = true := by
  rw [Table.keyed_iff] at h ⊢
  intro x hx
  exact h x (List.mem_filter.mp hx).1

theorem Table.Keyed_UpdateItem (t : Table) (k : String) (a b c : AttributeValue)
    (h : t.Keyed = true) :
    (Table.UpdateItem t (.S k) [("name", a), ("description", b), ("updateDate", c)]).Keyed
      = true := by
  rw [Table.keyed_iff] at h ⊢
  have hset : ∀ x : Item,
      (Item.applySets x [("name", a), ("description", b), ("updateDate", c)]).filter
          Item.selectsID
        = x.filter Item.selectsID := by
    intro x
    simp only [Item.applySets, List.foldl]
    rw [Item.filter_set_other _ _ _ (by decide), Item.filter_set_other _ _ _ (by decide),
      Item.filter_set_other _ _ _ (by decide)]
  intro x hx
  unfold Table.UpdateItem at hx
  split at hx
  · obtain ⟨y, hy, hxy⟩ := List.mem_map.mp hx
    split at hxy
    · rw [← hxy, hset]
      exact h y hy
    · rw [← hxy]
      exact h y hy
  · rcases List.mem_append.mp hx with hx | hx
    · exact h x hx
    · simp only [List.mem_singleton] at hx
      rw [hx, hset]
      exact ⟨k, Item.filter_key k⟩

theorem getTodos_table (lib : Lib) (env : Env) (table : Table) (event : APIGatewayProxyRequest) :
    (getTodos lib env table event).table = table := by
  unfold getTodos
  cases env.storeErr with
  | some e => simp only []
  | none =>
    simp only []
    cases getTodosLoop lib table none with
    | error e => simp only [httpError]
    | ok todos =>
      simp only []
      cases jsonMarshal todos <;> simp only [httpError]

theorem saveTodo_keyed (lib : Lib) (env : Env) (table : Table) (event : APIGatewayProxyRequest)
    (h : table.Keyed = true) : (saveTodo lib env table event).table.Keyed = true := by
  unfold saveTodo
  cases unmarshalCreate lib event.Body with
  | error e => simpa only [httpError] using h
  | ok req =>
    simp only [MarshalMap]
    cases env.storeErr with
    | some e => simpa only [httpError] using h
    | none =>
      exact Table.Keyed_PutItem _ _ env.uuid h (by
        simp only [Item.set]
        exact Item.filter_written _ _ _ _)

theorem updateTodo_keyed (lib : Lib) (env : Env) (table : Table) (event : APIGatewayProxyRequest)
    (h : table.Keyed = true) : (updateTodo lib env table event).table.Keyed = true := by
  unfold updateTodo
  cases List.lookup "id" event.PathParameters with
  | none => simpa only [httpError] using h
  | some id =>
    simp only []
    cases unmarshalUpdate event.Body with
    | error e => simpa only [] using h
    | ok req =>
      simp only []
      split
      · simpa only [httpError] using h
      · simp only [buildUpdate, List.map]
        cases env.storeErr with
        | some e => simpa only [httpError] using h
        | none => exact Table.Keyed_UpdateItem _ _ _ _ _ h

theorem removeTodo_keyed (lib : Lib) (env : Env) (table : Table) (event : APIGatewayProxyRequest)
    (h : table.Keyed = true) : (removeTodo lib env table event).table.Keyed = true := by
  unfold removeTodo
  cases List.lookup "id" event.PathParameters with
  | none => simpa only [httpError] using h
  | some id =>
    simp only []
    cases env.storeErr with
    | some e => simpa only [httpError] using h
    | none => exact Table.Keyed_DeleteItem _ _ h

/-- The key schema is an invariant of the handler: on a table whose items carry
their string key, every invocation leaves such a table. -/
theorem handler_preserves_keyed (lib : Lib) (env : Env) (table : Table)
    (event : APIGatewayProxyRequest) (h : table.Keyed = true) :
    (handler lib env table event).table.Keyed = true := by
  unfold handler actions
  split_ifs with h1 h2 h3 h4
  · exact saveTodo_keyed lib env table event h
  · show (getTodos lib env table event).table.Keyed = true
    rw [getTodos_table]
    exact h
  · exact updateTodo_keyed lib env table event h
  · exact removeTodo_keyed lib env table event h
  · exact h

/-! ## Sibling paths -/

/-- A failing store call in `saveTodo`, `updateTodo` and `removeTodo`, past their
checks on the request, is answered 500 with the text `Internal Server Error`. -/
theorem store_failure_internal_error (lib : Lib) (env : Env) (table : Table)
    (event : APIGatewayProxyRequest) (e : Error) (hs : env.storeErr = some e) :
    (∀ req, unmarshalCreate lib event.Body = .ok req →
        (saveTodo lib env table event).resp = ⟨500, "Internal Server Error"⟩)
      ∧ (∀ req, unmarshalUpdate event.Body = .ok req →
          event.PathParameters.lookup "id" = some req.ID →
          (updateTodo lib env table event).resp = ⟨500, "Internal Server Error"⟩)
      ∧ (∀ id, event.PathParameters.lookup "id" = some id →
          (removeTodo lib env table event).resp = ⟨500, "Internal Server Error"⟩) := by
  refine ⟨?_, ?_, ?_⟩
  · intro req hreq
    simp [saveTodo, hreq, MarshalMap, hs, httpError, StatusText]
  · intro req hreq hid
    simp [updateTodo, hreq, hid, buildUpdate, hs, httpError, StatusText]
  · intro id hid
    simp [removeTodo, hid, hs, httpError, StatusText]

/-- The one store call of `getTodos`. -/
theorem getTodos_calls (lib : Lib) (env : Env) (table : Table) (event : APIGatewayProxyRequest) :
    (getTodos lib env table event).calls
      = [StoreCall.Scan (Context.WithTimeout Context.Background env.now (Second * 3))
          env.tableName] := by
  unfold getTodos
  cases env.storeErr with
  | some e => rfl
  | none =>
    simp only []
    cases getTodosLoop lib table none with
    | error e => rfl
    | ok todos =>
      simp only []
      cases jsonMarshal todos <;> rfl

/-- The store calls of `getTodos`, `saveTodo` and `removeTodo` are issued under a
context whose deadline is three seconds after the clock reading. -/
theorem calls_under_deadline (lib : Lib) (env : Env) (table : Table)
    (event : APIGatewayProxyRequest) (c : StoreCall)
    (hc : c ∈ (getTodos lib env table event).calls ∨ c ∈ (saveTodo lib env table event).calls
      ∨ c ∈ (removeTodo lib env table event).calls) :
    c.ctx.deadline = some (env.now.Add (Second * 3)) := by
  have hctx : (Context.WithTimeout Context.Background env.now (Second * 3)).deadline
      = some (env.now.Add (Second * 3)) := rfl
  rcases hc with hc | hc | hc
  · rw [getTodos_calls, List.mem_singleton] at hc
    rw [hc]
    exact hctx
  · cases hb : unmarshalCreate lib event.Body with
    | error e => simp [saveTodo, hb, httpError] at hc
    | ok req =>
      rw [saveTodo_calls lib env table event req hb, List.mem_singleton] at hc
      rw [hc]
      exact hctx
  · cases hp : List.lookup "id" event.PathParameters with
    | none => simp [removeTodo, hp, httpError] at hc
    | some id =>
      have hcalls : (removeTodo lib env table event).calls
          = [StoreCall.DeleteItem (Context.WithTimeout Context.Background env.now (Second * 3))
              env.tableName (.S id)] := by
        unfold removeTodo
        simp only [hp]
        cases env.storeErr <;> rfl
      rw [hcalls, List.mem_singleton] at hc
      rw [hc]
      exact hctx

/-! ## Method dispatch -/

/-- C1: `handler` dispatches on the exact method string: `POST` runs `saveTodo`,
`GET` runs `getTodos`, `PUT` runs `updateTodo`, `DELETE` runs `removeTodo`, and
for any other method string the response is 500 with the text
`Internal Server Error`, the error is nil, no store call is issued and the
table is untouched. -/
theorem handler_dispatch (lib : Lib) (env : Env) (table : Table)
    (event : APIGatewayProxyRequest) :
    handler lib env table { event with HTTPMethod := "POST" }
        = saveTodo lib env table { event with HTTPMethod := "POST" }
      ∧ handler lib env table { event with HTTPMethod := "GET" }
        = getTodos lib env table { event with HTTPMethod := "GET" }
      ∧ handler lib env table { event with HTTPMethod := "PUT" }
        = updateTodo lib env table { event with HTTPMethod := "PUT" }
      ∧ handler lib env table { event with HTTPMethod := "DELETE" }
        = removeTodo lib env table { event with HTTPMethod := "DELETE" }
      ∧ (event.HTTPMethod ≠ "POST" → event.HTTPMethod ≠ "GET" →
          event.HTTPMethod ≠ "PUT" → event.HTTPMethod ≠ "DELETE" →
          (handler lib env table event).resp = ⟨500, "Internal Server Error"⟩
            ∧ (handler lib env table event).err = none
            ∧ (handler lib env table event).calls = []
            ∧ (handler lib env table event).table = table) := by
  refine ⟨?_, ?_, ?_, ?_, ?_⟩
  · simp [handler, actions]
  · simp [handler, actions]
  · simp [handler, actions]
  · simp [handler, actions]
  · intro h1 h2 h3 h4
    simp [handler, actions, h1, h2, h3, h4, httpError, StatusText]

/-- The dispatch on the method `get`, which is no key of `actions`. -/
theorem handler_dispatch_witness :
    ("get" ≠ "POST" ∧ "get" ≠ "GET" ∧ "get" ≠ "PUT" ∧ "get" ≠ "DELETE")
      ∧ (handler sampleLib sampleEnv [] ⟨"get", [], .malformed⟩).resp
          = ⟨500, "Internal Server Error"⟩
      ∧ (handler sampleLib sampleEnv [] ⟨"get", [], .malformed⟩).calls = [] :=
  ⟨by decide,
    ((handler_dispatch sampleLib sampleEnv [] ⟨"get", [], .malformed⟩).2.2.2.2
      (by decide) (by decide) (by decide) (by decide)).1,
    ((handler_dispatch sampleLib sampleEnv [] ⟨"get", [], .malformed⟩).2.2.2.2
      (by decide) (by decide) (by decide) (by decide)).2.2.1⟩

/-! ## Update -/

/-- When the body of an update decodes to a request whose `id` is not the `id`
path parameter (a missing path parameter included), `updateTodo` answers 400
with a nil error and issues no store call; the table is left as it was. -/
theorem updateTodo_id_mismatch (lib : Lib) (env : Env) (table : Table)
    (event : APIGatewayProxyRequest) (req : UpdateTodoRequest)
    (hbody : unmarshalUpdate event.Body = .ok req)
    (hne : event.PathParameters.lookup "id" ≠ some req.ID) :
    (updateTodo lib env table event).resp = ⟨400, "Bad Request"⟩
      ∧ (updateTodo lib env table event).err = none
      ∧ (updateTodo lib env table event).calls = []
      ∧ (updateTodo lib env table event).table = table := by
  unfold updateTodo
  cases hp : List.lookup "id" event.PathParameters with
  | none => simp [httpError, StatusText]
  | some id =>
    have hid : id ≠ req.ID := by
      intro h
      apply hne
      rw [hp, h]
    simp [hbody, hid, httpError, StatusText]

/-- C2, at an update of item 8 whose body names item 7 and gives a number for the
name: the body does not decode, and `updateTodo` returns the zero response
(status 0, empty body) together with the decoding error before it compares the
two ids; no store call is issued and the table is left as it was. -/
theorem updateTodo_mismatch_undecodable (lib : Lib) (env : Env) (table : Table) :
    (updateTodo lib env table ⟨"PUT", [("id", "8")],
        .json (.object [("id", .string "7"), ("name", .number "5")])⟩).resp = ⟨0, ""⟩
      ∧ (updateTodo lib env table ⟨"PUT", [("id", "8")],
          .json (.object [("id", .string "7"), ("name", .number "5")])⟩).err = some .json
      ∧ (updateTodo lib env table ⟨"PUT", [("id", "8")],
          .json (.object [("id", .string "7"), ("name", .number "5")])⟩).calls = []
      ∧ (updateTodo lib env table ⟨"PUT", [("id", "8")],
          .json (.object [("id", .string "7"), ("name", .number "5")])⟩).table = table := by
  have hb : unmarshalUpdate (.json (.object [("id", .string "7"), ("name", .number "5")]))
      = .error .json := by decide
  simp [updateTodo, hb, List.lookup]

/-- C7, at an update whose body is not JSON or is a JSON array: with the `id`
path parameter present, `updateTodo` returns the zero response (status 0, empty
body) together with the decoding error, where `saveTodo` answers 400 on the same
body; neither issues a store call. -/
theorem updateTodo_undecodable_body (lib : Lib) (env : Env) (table : Table) (method id : String)
    (params : List (String × String)) (items : List JsonValue) :
    (updateTodo lib env table ⟨method, ("id", id) :: params, .malformed⟩).resp = ⟨0, ""⟩
      ∧ (updateTodo lib env table ⟨method, ("id", id) :: params, .malformed⟩).err = some .json
      ∧ (updateTodo lib env table ⟨method, ("id", id) :: params, .malformed⟩).calls = []
      ∧ (updateTodo lib env table ⟨method, ("id", id) :: params, .json (.array items)⟩).resp
          = ⟨0, ""⟩
      ∧ (updateTodo lib env table ⟨method, ("id", id) :: params, .json (.array items)⟩).err
          = some .json
      ∧ (saveTodo lib env table ⟨method, ("id", id) :: params, .malformed⟩).resp
          = ⟨400, "Bad Request"⟩
      ∧ (saveTodo lib env table ⟨method, ("id", id) :: params, .malformed⟩).calls = [] := by
  simp [updateTodo, saveTodo, unmarshalUpdate, unmarshalCreate, httpError, StatusText,
    List.lookup]

/-- C10, at an update that reaches the store: the one call `updateTodo` issues,
`UpdateItem`, goes out under the background context, which carries no
deadline. -/
theorem updateTodo_call_without_deadline :
    (updateTodo sampleLib sampleEnv [[("id", .S "7"), ("name", .S "Tea")]]
        ⟨"PUT", [("id", "7")],
          .json (.object [("id", .string "7"), ("name", .string "Buy milk")])⟩).calls
      = [StoreCall.UpdateItem Context.Background "todo-api" (.S "7")
          [("name", .S "Buy milk"), ("description", .NULL),
            ("updateDate", .S "2021-12-01T00:00:00Z")]]
      ∧ Context.Background.deadline = none := by
  decide

/-! ## List -/

/-- C5, at a scan that succeeds with zero items: the slice `todos` is still nil
when it is serialized, so `getTodos` answers 200 with the body `null`, which is
not the empty array. -/
theorem getTodos_empty_table (lib : Lib) (env : Env) (event : APIGatewayProxyRequest) :
    getTodosLoop lib [] none = .ok none
      ∧ (getTodos lib { env with storeErr := none } [] event).resp = ⟨200, "null"⟩
      ∧ (getTodos lib { env with storeErr := none } [] event).err = none
      ∧ (getTodos lib { env with storeErr := none } [] event).resp.Body ≠ "[]" := by
  refine ⟨rfl, ?_, ?_, ?_⟩
  · simp [getTodos, getTodosLoop, jsonMarshal]
  · simp [getTodos, getTodosLoop, jsonMarshal]
  · simp [getTodos, getTodosLoop, jsonMarshal]

/-- C6, at a failing scan: `getTodos` returns the zero response (status 0, empty
body) together with the store error, and logs nothing. -/
theorem getTodos_scan_failure (lib : Lib) (env : Env) (table : Table)
    (event : APIGatewayProxyRequest) (e : Error) :
    (getTodos lib { env with storeErr := some e } table event).resp = ⟨0, ""⟩
      ∧ (getTodos lib { env with storeErr := some e } table event).err = some e
      ∧ (getTodos lib { env with storeErr := some e } table event).logs = [] := by
  simp [getTodos]

/-! ## Delete -/

/-- C8: a delete with an `id` path parameter whose store call does not fail
answers 200 with an empty body, whatever the table holds, and leaves exactly the
items under another key; a second run of the same delete answers 200 again and
leaves the table as the first run left it. -/
theorem removeTodo_idempotent (lib : Lib) (env env2 : Env) (table : Table)
    (event : APIGatewayProxyRequest) (id : String)
    (hid : event.PathParameters.lookup "id" = some id)
    (h1 : env.storeErr = none) (h2 : env2.storeErr = none) :
    (removeTodo lib env table event).resp = ⟨200, ""⟩
      ∧ (removeTodo lib env table event).err = none
      ∧ (removeTodo lib env2 (removeTodo lib env table event).table event).resp = ⟨200, ""⟩
      ∧ (removeTodo lib env2 (removeTodo lib env table event).table event).err = none
      ∧ (removeTodo lib env2 (removeTodo lib env table event).table event).table
          = (removeTodo lib env table event).table
      ∧ (∀ x, x ∈ (removeTodo lib env table event).table
          ↔ x ∈ table ∧ x.lookup "id" ≠ some (.S id)) := by
  have ht : (removeTodo lib env table event).table = Table.DeleteItem table (.S id) := by
    simp [removeTodo, hid, h1]
  refine ⟨?_, ?_, ?_, ?_, ?_, ?_⟩
  · simp [removeTodo, hid, h1]
  · simp [removeTodo, hid, h1]
  · simp [removeTodo, hid, h2]
  · simp [removeTodo, hid, h2]
  · rw [ht]
    simp [removeTodo, hid, h2, Table.DeleteItem, List.filter_filter]
  · intro x
    rw [ht]
    simp [Table.DeleteItem, List.mem_filter]

/-- A delete of item 8, twice, on a table that holds item 7 only. -/
theorem removeTodo_idempotent_witness :
    List.lookup "id" [("id", "8")] = some "8"
      ∧ sampleEnv.storeErr = none
      ∧ (removeTodo sampleLib sampleEnv [[("id", .S "7"), ("name", .S "Tea")]]
          ⟨"DELETE", [("id", "8")], .malformed⟩).resp = ⟨200, ""⟩
      ∧ (removeTodo sampleLib sampleEnv
          (removeTodo sampleLib sampleEnv [[("id", .S "7"), ("name", .S "Tea")]]
            ⟨"DELETE", [("id", "8")], .malformed⟩).table
          ⟨"DELETE", [("id", "8")], .malformed⟩).resp = ⟨200, ""⟩ :=
  ⟨by decide, by decide,
    (removeTodo_idempotent sampleLib sampleEnv sampleEnv [[("id", .S "7"), ("name", .S "Tea")]]
      ⟨"DELETE", [("id", "8")], .malformed⟩ "8" (by decide) (by decide) (by decide)).1,
    (removeTodo_idempotent sampleLib sampleEnv sampleEnv [[("id", .S "7"), ("name", .S "Tea")]]
      ⟨"DELETE", [("id", "8")], .malformed⟩ "8" (by decide) (by decide) (by decide)).2.2.1⟩

/-! ## Create -/

/-- C4, at a create on 1 December 2021 whose body carries no `createDate`: the
create succeeds, and the item it writes has as `createDate` the text of the zero
time, not the text of the clock reading. -/
theorem saveTodo_createDate_not_clock :
    (saveTodo sampleLib sampleEnv [] ⟨"POST", [],
        .json (.object [("name", .string "Buy milk")])⟩).resp.StatusCode = 201
      ∧ (saveTodo sampleLib sampleEnv [] ⟨"POST", [],
          .json (.object [("name", .string "Buy milk")])⟩).calls
        = [StoreCall.PutItem ⟨some ⟨63773913603000000000, 0⟩⟩ "todo-api"
            [("name", .S "Buy milk"), ("description", .NULL),
              ("createDate", .S "0001-01-01T00:00:00Z"),
              ("id", .S "3f2b8c1e-5d4a-4e6b-9c7d-0a1b2c3d4e5f")]]
      ∧ (saveTodo sampleLib sampleEnv [] ⟨"POST", [],
          .json (.object [("name", .string "Buy milk")])⟩).table
        = [[("name", .S "Buy milk"), ("description", .NULL),
            ("createDate", .S "0001-01-01T00:00:00Z"),
            ("id", .S "3f2b8c1e-5d4a-4e6b-9c7d-0a1b2c3d4e5f")]]
      ∧ sampleEnv.now.Format true = "2021-12-01T00:00:00Z"
      ∧ AttributeValue.S "0001-01-01T00:00:00Z" ≠ .S (sampleEnv.now.Format true) := by
  decide

/-- What `saveTodo` writes as `createDate`: on every successful create the body
decoded to a request, and the one item written has the text of the `createDate`
of that request, which is the zero time when no member of the body is a
`createDate`; the clock is not read for it. -/
theorem saveTodo_createDate_from_body (lib : Lib) (env : Env) (table : Table)
    (event : APIGatewayProxyRequest)
    (hok : (saveTodo lib env table event).resp.StatusCode = 201) :
    ∃ req item,
      unmarshalCreate lib event.Body = .ok req
        ∧ (saveTodo lib env table event).calls
          = [StoreCall.PutItem (Context.WithTimeout Context.Background env.now (Second * 3))
              env.tableName item]
        ∧ (saveTodo lib env table event).table = Table.PutItem table item
        ∧ item.lookup "createDate" = some (.S (req.CreateDate.Format true))
        ∧ (∀ ms, event.Body = .json (.object ms) →
            (∀ kv ∈ ms, equalFold "createDate" kv.1 = false) → req.CreateDate = Time.zero) := by
  obtain ⟨req, hbody, _, htable⟩ := saveTodo_created lib env table event hok
  refine ⟨req, _, hbody, saveTodo_calls lib env table event req hbody, htable, ?_, ?_⟩
  · simp [List.lookup]
  · intro ms hms hno
    rw [hms] at hbody
    simp only [unmarshalCreate] at hbody
    exact createFromMembers_createDate lib ms _ req hbody hno

set_option maxRecDepth 20000

/-- C3 as stated fails: on a table whose one item carries, next to its key `id`,
an attribute `ID` holding the identifier the create is about to generate, the
create answers 201, the list answers 200, and the two items listed share their
id. -/
theorem create_then_list_shared_id :
    (saveTodo sampleLib sampleEnv
        [[("id", .S "7"), ("ID", .S "3f2b8c1e-5d4a-4e6b-9c7d-0a1b2c3d4e5f"),
          ("name", .S "Tea")]]
        ⟨"POST", [], .json (.object [("name", .string "Buy milk")])⟩).resp.StatusCode = 201
      ∧ (getTodos sampleLib sampleEnv
          (saveTodo sampleLib sampleEnv
            [[("id", .S "7"), ("ID", .S "3f2b8c1e-5d4a-4e6b-9c7d-0a1b2c3d4e5f"),
              ("name", .S "Tea")]]
            ⟨"POST", [], .json (.object [("name", .string "Buy milk")])⟩).table
          ⟨"GET", [], .malformed⟩).resp
        = ⟨200, "[\x7b\"id\":\"3f2b8c1e-5d4a-4e6b-9c7d-0a1b2c3d4e5f\",\"name\":\"Tea\","
            ++ "\"description\":\"\",\"createDate\":\"0001-01-01T00:00:00Z\"\x7d,"
            ++ "\x7b\"id\":\"3f2b8c1e-5d4a-4e6b-9c7d-0a1b2c3d4e5f\",\"name\":\"Buy milk\","
            ++ "\"description\":\"\",\"createDate\":\"0001-01-01T00:00:00Z\"\x7d]"⟩
      ∧ getTodosLoop sampleLib
          (saveTodo sampleLib sampleEnv
            [[("id", .S "7"), ("ID", .S "3f2b8c1e-5d4a-4e6b-9c7d-0a1b2c3d4e5f"),
              ("name", .S "Tea")]]
            ⟨"POST", [], .json (.object [("name", .string "Buy milk")])⟩).table none
        = .ok (some [⟨"3f2b8c1e-5d4a-4e6b-9c7d-0a1b2c3d4e5f", "Tea", "", Time.zero⟩,
            ⟨"3f2b8c1e-5d4a-4e6b-9c7d-0a1b2c3d4e5f", "Buy milk", "", Time.zero⟩]) := by
  decide

/-- C3, amended: on a table each of whose items carries the key `id` as a string
and no other attribute whose name is `id` up to letter case, when a create whose
body decodes to name `n` and description `d` answers 201 and a list on the
resulting table answers 200, the body of the list is the JSON array of a list of
todos that holds, under the generated identifier, an item with name `n` and
description `d`, whose id differs from the id of the item at every other
position. -/
theorem create_then_list (lib : Lib) (env env2 : Env) (table : Table)
    (event event2 : APIGatewayProxyRequest) (req : CreateTodoRequest)
    (hkeyed : table.Keyed = true)
    (hbody : unmarshalCreate lib event.Body = .ok req)
    (hsave : (saveTodo lib env table event).resp.StatusCode = 201)
    (hlist : (getTodos lib env2 (saveTodo lib env table event).table event2).resp.StatusCode
      = 200) :
    ∃ (todos : List ListTodoResponse) (i : Nat) (hi : i < todos.length),
      (getTodos lib env2 (saveTodo lib env table event).table event2).resp.Body
          = wireTodos todos
        ∧ todos[i].ID = env.uuid
        ∧ todos[i].Name = req.Name
        ∧ todos[i].Description = req.Description
        ∧ ∀ (j : Nat) (hj : j < todos.length), j ≠ i → todos[j].ID ≠ todos[i].ID := by
  obtain ⟨req2, hbody2, _, htable⟩ := saveTodo_created lib env table event hsave
  have hreq : req2 = req := by
    rw [hbody] at hbody2
    exact (Except.ok.inj hbody2).symm
  subst hreq
  obtain ⟨r, hloop, hjson⟩ := getTodos_ok lib env2 _ event2 hlist
  rw [htable] at hloop
  unfold Table.PutItem at hloop
  obtain ⟨ds, d, hr, hd, hds⟩ := getTodosLoop_snoc lib _ _ _ _ hloop
  obtain ⟨hdid, hdname, hddesc⟩ := UnmarshalMap_written lib req2 env.uuid d hd
  have hr2 : r = some (ds ++ [d]) := by simpa using hr
  rw [hr2] at hjson
  have hlast : (ds ++ [d])[ds.length] = d := by simp
  refine ⟨ds ++ [d], ds.length, by simp, (jsonMarshal_wire _ _ hjson), ?_, ?_, ?_, ?_⟩
  · rw [hlast, hdid]
  · rw [hlast, hdname]
  · rw [hlast, hddesc]
  · intro j hj hne
    have hjlt : j < ds.length := by
      have : j < ds.length + 1 := by simpa using hj
      omega
    have e1 : (ds ++ [d])[j] = ds[j] := List.getElem_append_left hjlt
    rw [e1, hlast, hdid]
    obtain ⟨x, hx, hxd⟩ := hds ds[j] (List.getElem_mem hjlt)
    rw [List.mem_filter] at hx
    obtain ⟨k, hk⟩ := (Table.keyed_iff table).mp hkeyed x hx.1
    rw [UnmarshalMap_id lib x ds[j] k hxd hk]
    intro hku
    have hx2 := hx.2
    rw [Item.lookup_id_of_key k x hk, hku] at hx2
    simp [List.lookup] at hx2

/-- A create followed by a list on a table that already holds an item with the
same name. -/
theorem create_then_list_witness :
    Table.Keyed [[("id", .S "7"), ("name", .S "Buy milk")]] = true
      ∧ unmarshalCreate sampleLib (.json (.object [("name", .string "Buy milk"),
          ("description", .string "2 l")])) = .ok ⟨"Buy milk", "2 l", Time.zero⟩
      ∧ (saveTodo sampleLib sampleEnv [[("id", .S "7"), ("name", .S "Buy milk")]]
          ⟨"POST", [], .json (.object [("name", .string "Buy milk"),
            ("description", .string "2 l")])⟩).resp.StatusCode = 201
      ∧ (getTodos sampleLib sampleEnv
          (saveTodo sampleLib sampleEnv [[("id", .S "7"), ("name", .S "Buy milk")]]
            ⟨"POST", [], .json (.object [("name", .string "Buy milk"),
              ("description", .string "2 l")])⟩).table
          ⟨"GET", [], .malformed⟩).resp
        = ⟨200, "[\x7b\"id\":\"7\",\"name\":\"Buy milk\",\"description\":\"\","
            ++ "\"createDate\":\"0001-01-01T00:00:00Z\"\x7d,"
            ++ "\x7b\"id\":\"3f2b8c1e-5d4a-4e6b-9c7d-0a1b2c3d4e5f\",\"name\":\"Buy milk\","
            ++ "\"description\":\"2 l\",\"createDate\":\"0001-01-01T00:00:00Z\"\x7d]"⟩
      ∧ ∃ (todos : List ListTodoResponse) (i : Nat) (hi : i < todos.length),
        (getTodos sampleLib sampleEnv
            (saveTodo sampleLib sampleEnv [[("id", .S "7"), ("name", .S "Buy milk")]]
              ⟨"POST", [], .json (.object [("name", .string "Buy milk"),
                ("description", .string "2 l")])⟩).table
            ⟨"GET", [], .malformed⟩).resp.Body = wireTodos todos
          ∧ todos[i].ID = sampleEnv.uuid
          ∧ todos[i].Name = "Buy milk"
          ∧ todos[i].Description = "2 l"
          ∧ ∀ (j : Nat) (hj : j < todos.length), j ≠ i → todos[j].ID ≠ todos[i].ID :=
  ⟨by decide, by decide, by decide, by decide,
    create_then_list sampleLib sampleEnv sampleEnv [[("id", .S "7"), ("name", .S "Buy milk")]]
      ⟨"POST", [], .json (.object [("name", .string "Buy milk"),
        ("description", .string "2 l")])⟩
      ⟨"GET", [], .malformed⟩ ⟨"Buy milk", "2 l", Time.zero⟩
      (by decide) (by decide) (by decide) (by decide)⟩

/-- C9 as stated fails: a create whose body has an empty name answers 201 and
puts an item whose `name` is a NULL attribute, and an update whose body has no
name answers 200 and sets `name` to a NULL attribute. -/
theorem writes_with_empty_name :
    (saveTodo sampleLib sampleEnv [] ⟨"POST", [],
        .json (.object [("name", .string "")])⟩).resp.StatusCode = 201
      ∧ (saveTodo sampleLib sampleEnv [] ⟨"POST", [],
          .json (.object [("name", .string "")])⟩).calls
        = [StoreCall.PutItem ⟨some ⟨63773913603000000000, 0⟩⟩ "todo-api"
            [("name", .NULL), ("description", .NULL),
              ("createDate", .S "0001-01-01T00:00:00Z"),
              ("id", .S "3f2b8c1e-5d4a-4e6b-9c7d-0a1b2c3d4e5f")]]
      ∧ (updateTodo sampleLib sampleEnv [[("id", .S "7"), ("name", .S "Tea")]]
          ⟨"PUT", [("id", "7")], .json (.object [("id", .string "7")])⟩).resp.StatusCode = 200
      ∧ (updateTodo sampleLib sampleEnv [[("id", .S "7"), ("name", .S "Tea")]]
          ⟨"PUT", [("id", "7")], .json (.object [("id", .string "7")])⟩).calls
        = [StoreCall.UpdateItem ⟨none⟩ "todo-api" (.S "7")
            [("name", .NULL), ("description", .NULL),
              ("updateDate", .S "2021-12-01T00:00:00Z")]]
      ∧ (updateTodo sampleLib sampleEnv [[("id", .S "7"), ("name", .S "Tea")]]
          ⟨"PUT", [("id", "7")], .json (.object [("id", .string "7")])⟩).table
        = [[("id", .S "7"), ("name", .NULL), ("description", .NULL),
            ("updateDate", .S "2021-12-01T00:00:00Z")]] := by
  decide

/-- C9, amended: the item `saveTodo` puts and the attribute update `updateTodo`
issues carry the name decoded from the request body, as an S attribute when it
is not empty and as a NULL attribute when it is; the name is not checked, so
with a store call that succeeds the create answers 201 and the update, its body
id being the path id, answers 200. -/
theorem written_name_from_body (lib : Lib) (env : Env) (table : Table)
    (create update : APIGatewayProxyRequest) (reqC : CreateTodoRequest)
    (reqU : UpdateTodoRequest)
    (hC : unmarshalCreate lib create.Body = .ok reqC)
    (hU : unmarshalUpdate update.Body = .ok reqU)
    (hid : update.PathParameters.lookup "id" = some reqU.ID) :
    (∃ ctx item, (saveTodo lib env table create).calls
          = [StoreCall.PutItem ctx env.tableName item]
        ∧ item.lookup "name" = some (encodeString reqC.Name))
      ∧ (saveTodo lib { env with storeErr := none } table create).resp = ⟨201, ""⟩
      ∧ (updateTodo lib env table update).calls
        = [StoreCall.UpdateItem Context.Background env.tableName (.S reqU.ID)
            [("name", encodeString reqU.Name), ("description", encodeString reqU.Description),
              ("updateDate", .S (env.now.UTC.Format false))]]
      ∧ (updateTodo lib { env with storeErr := none } table update).resp = ⟨200, ""⟩ := by
  refine ⟨⟨_, _, saveTodo_calls lib env table create reqC hC, ?_⟩, ?_, ?_, ?_⟩
  · simp [List.lookup]
  · simp [saveTodo, hC, MarshalMap]
  · unfold updateTodo
    simp only [hid, hU, buildUpdate]
    cases env.storeErr <;> simp [httpError, encodeString, Time.Format_ne_empty]
  · simp [updateTodo, hid, hU, buildUpdate]

/-- A create whose body has no name and an update whose body has an empty one. -/
theorem written_name_from_body_witness :
    unmarshalCreate sampleLib (.json (.object [("description", .string "2 l")]))
        = .ok ⟨"", "2 l", Time.zero⟩
      ∧ unmarshalUpdate (.json (.object [("id", .string "7"), ("name", .string "")]))
        = .ok ⟨"7", "", ""⟩
      ∧ List.lookup "id" [("id", "7")] = some "7"
      ∧ (saveTodo sampleLib { sampleEnv with storeErr := none } []
          ⟨"POST", [], .json (.object [("description", .string "2 l")])⟩).resp = ⟨201, ""⟩
      ∧ (updateTodo sampleLib sampleEnv []
          ⟨"PUT", [("id", "7")],
            .json (.object [("id", .string "7"), ("name", .string "")])⟩).calls
        = [StoreCall.UpdateItem Context.Background sampleEnv.tableName (.S "7")
            [("name", encodeString ""), ("description", encodeString ""),
              ("updateDate", .S (sampleEnv.now.UTC.Format false))]] :=
  ⟨by decide, by decide, by decide,
    (written_name_from_body sampleLib sampleEnv []
      ⟨"POST", [], .json (.object [("description", .string "2 l")])⟩
      ⟨"PUT", [("id", "7")], .json (.object [("id", .string "7"), ("name", .string "")])⟩
      ⟨"", "2 l", Time.zero⟩ ⟨"7", "", ""⟩ (by decide) (by decide) (by decide)).2.1,
    (written_name_from_body sampleLib sampleEnv []
      ⟨"POST", [], .json (.object [("description", .string "2 l")])⟩
      ⟨"PUT", [("id", "7")], .json (.object [("id", .string "7"), ("name", .string "")])⟩
      ⟨"", "2 l", Time.zero⟩ ⟨"7", "", ""⟩ (by decide) (by decide) (by decide)).2.2.1⟩

end TodoApi
